import Mathlib

/-!
Verification of the agentic-web repository core: a shallow embedding of
the MCP ReAct tool-calling loop (`src/agents/mcp/mcp_executor.py`,
`src/agents/mcp/mcp_agent_tools.py`), the input-preparation functions
(`src/agents/llm/llm_executor.py`, `src/agents/mcp/mcp_executor.py`),
the multi-port server manager (`src/core/server.py`) and the echo agent
(`src/agents/echo/echo_agent.py`), together with proofs of the spec's
testable properties.

Python-specific behaviour is embedded explicitly: `x or y` on strings /
`None` uses Python truthiness (`None` and `""` are falsy), `if value:`
on parsed JSON uses JSON truthiness (`null`, `false`, `0`, `""`, `[]`
and the empty object are falsy), exceptions are `Except.error`, and
`dict` values appended to a message list are modelled by an inductive
of the dict shapes actually constructed.
-/

namespace AgenticWeb

/-- JSON values, as produced by `json.loads` and consumed by
`json.dumps`.  Numbers are restricted to integers; no claim depends on
float formatting. -/
inductive Json where
  | null : Json
  | bool (b : Bool) : Json
  | num (n : Int) : Json
  | str (s : String) : Json
  | arr (xs : List Json) : Json
  | obj (fields : List (String × Json)) : Json

/-- Python truthiness of a JSON value: `None`, `False`, `0`, `""`,
`[]` and the empty object are falsy. -/
def Json.truthy : Json → Bool
  | .null => false
  | .bool b => b
  | .num n => n != 0
  | .str s => s != ""
  | .arr xs => !xs.isEmpty
  | .obj fs => !fs.isEmpty

/-- Escape one character the way `json.dumps` does for the characters
that occur in this development (backslash, quote, and common control
characters); other characters pass through unchanged. -/
def escapeJsonChar (c : Char) : String :=
  if c = '\\' then "\\\\"
  else if c = '\"' then "\\\""
  else if c = '\n' then "\\n"
  else if c = '\t' then "\\t"
  else if c = '\r' then "\\r"
  else String.singleton c

/-- Serialise a string as a quoted JSON string literal. -/
def jsonQuote (s : String) : String :=
  "\"" ++ String.join (s.data.map escapeJsonChar) ++ "\""

mutual

/-- Serialise a JSON value the way `json.dumps` renders it with its
default separators. -/
def Json.dumps : Json → String
  | .null => "null"
  | .bool b => if b then "true" else "false"
  | .num n => toString n
  | .str s => jsonQuote s
  | .arr xs => "[" ++ dumpsArr xs ++ "]"
  | .obj fs => "\x7b" ++ dumpsObj fs ++ "\x7d"

/-- Comma-separated serialisation of the elements of a JSON array. -/
def dumpsArr : List Json → String
  | [] => ""
  | [x] => Json.dumps x
  | x :: y :: xs => Json.dumps x ++ ", " ++ dumpsArr (y :: xs)

/-- Comma-separated serialisation of the fields of a JSON object. -/
def dumpsObj : List (String × Json) → String
  | [] => ""
  | [(k, v)] => jsonQuote k ++ ": " ++ Json.dumps v
  | (k, v) :: f :: fs => jsonQuote k ++ ": " ++ Json.dumps v ++ ", " ++ dumpsObj (f :: fs)

end

/-- Python `x or default` where `x` is an optional string: `None` and
the empty string are falsy and select the default. -/
def pyOrString (x : Option String) (default : String) : String :=
  match x with
  | none => default
  | some s => if s = "" then default else s

/-- Python truthiness of an optional string (`None` and `""` falsy). -/
def optStrTruthy : Option String → Bool
  | none => false
  | some s => s != ""

/-! ## Tool catalog and tool invoker (`src/agents/mcp/mcp_agent_tools.py`) -/

/-- An MCP tool descriptor as held in the tools cache: `tool.name`,
`tool.description` (may be `None`) and `tool.inputSchema`
(`none` models a missing `inputSchema` attribute). -/
structure MCPTool where
  name : String
  description : Option String
  inputSchema : Option Json

/-- One entry of the tools cache: the owning server and the descriptor
(the dict `{server, tool}` of the cache). -/
structure ToolInfo where
  server : String
  tool : MCPTool

/-- The tools cache `tool_key -> {server, tool}`: an insertion-ordered
dict, modelled as an association list with distinct keys. -/
def ToolsCache : Type := List (String × ToolInfo)

/-- Dict lookup `tools_cache[tool_key]` / membership `tool_key in tools_cache`. -/
def cacheFind (cache : ToolsCache) (key : String) : Option ToolInfo :=
  (List.find? (fun p => p.1 = key) cache).map (fun p => p.2)

/-- One entry of the OpenAI tools list built by
`convert_mcp_tools_to_openai`.  The constant wrapper
`type: "function"` around the `function` dict is elided; `name`,
`description` and `parameters` are the fields of that inner dict. -/
structure OpenAITool where
  name : String
  description : String
  parameters : Json

/-- The empty-object parameters schema used when a tool declares no
(Python-truthy) input schema. -/
def emptyObjectSchema : Json :=
  Json.obj [("type", Json.str "object"), ("properties", Json.obj [])]

/-- Rendering of one cache entry inside `convert_mcp_tools_to_openai`:
name is the cache key, description is `tool.description or "Tool: <key>"`,
and parameters is `tool.inputSchema` when the attribute exists and is
truthy, else the empty-object schema. -/
def renderOpenAITool (entry : String × ToolInfo) : OpenAITool :=
  let tool_key := entry.1
  let tool := entry.2.tool
  { name := tool_key
    description := pyOrString tool.description ("Tool: " ++ tool_key)
    parameters :=
      match tool.inputSchema with
      | some schema => if schema.truthy then schema else emptyObjectSchema
      | none => emptyObjectSchema }

/-- `convert_mcp_tools_to_openai`: render every cache entry, in cache
order. -/
def convert_mcp_tools_to_openai (tools_cache : ToolsCache) : List OpenAITool :=
  tools_cache.map renderOpenAITool

/-- One item of a `CallToolResult.content` list; `text` is `some`
exactly when the item has a `text` attribute. -/
structure ResultContentItem where
  text : Option String

/-- The result object returned by `client.call_tool`. A `None` or empty
`content` list are both modelled by `[]` (both are Python-falsy). -/
structure CallToolResult where
  structuredContent : Option Json
  content : List ResultContentItem

/-- The tool transport: `mcp_pool.get_client(server).call_tool(tool_name,
arguments)`; `Except.error` models any exception raised on the way
(unknown server, timeout, connection error, remote exception).
Arguments are kept as the raw JSON value produced by `json.loads`. -/
def Transport : Type := String → String → Json → Except String CallToolResult

/-- The error-tagged result string `json.dumps({"error": msg})`. -/
def errorResult (msg : String) : String :=
  Json.dumps (Json.obj [("error", Json.str msg)])

/-- Normalisation of a successful `CallToolResult` in
`execute_mcp_tool_native`: prefer a truthy `structuredContent`
(returned as-is when a string, serialised otherwise); else join the
`text` attributes of a non-empty `content` list with newlines (with a
fixed message when no item has text); else a fixed no-output message. -/
def normalizeCallResult (result : CallToolResult) : String :=
  if (result.structuredContent.map Json.truthy).getD false then
    match result.structuredContent with
    | some (Json.str s) => s
    | some j => Json.dumps j
    | none => "Tool executed successfully (no output)"
  else if !result.content.isEmpty then
    let text_parts := result.content.filterMap (fun item => item.text)
    if text_parts.isEmpty then "Tool executed successfully"
    else String.intercalate "\n" text_parts
  else
    "Tool executed successfully (no output)"

/-- `execute_mcp_tool_native`: a total, string-valued function.  A key
absent from the cache yields an error-tagged JSON string; a transport
exception is caught and yields an error-tagged JSON string; a
successful call is normalised to text. -/
def execute_mcp_tool_native (transport : Transport) (tool_key : String)
    (arguments : Json) (tools_cache : ToolsCache) : String :=
  match cacheFind tools_cache tool_key with
  | none => errorResult ("Tool \x27" ++ tool_key ++ "\x27 not found in cache")
  | some tool_info =>
    match transport tool_info.server tool_info.tool.name arguments with
    | Except.error e => errorResult e
    | Except.ok result => normalizeCallResult result

/-! ## The ReAct loop (`src/agents/mcp/mcp_executor.py`) -/

/-- The `function` field of a native tool call: the tool key and the
raw JSON-encoded argument string. -/
structure ToolCallFunction where
  name : String
  arguments : String
deriving DecidableEq

/-- A native tool call returned by the model client. -/
structure ToolCall where
  id : String
  function : ToolCallFunction
deriving DecidableEq

/-- A model-client response in native mode: optional content plus an
ordered (possibly empty) tool-call list. -/
structure LLMResponse where
  content : Option String
  tool_calls : List ToolCall
deriving DecidableEq

/-- The dict shapes appended to the `messages` history by the two loop
modes: system / user / assistant (with the tool-call dicts it carries)
/ tool-result messages. -/
inductive ChatMessage where
  | system (content : String)
  | user (content : String)
  | assistant (content : Option String) (tool_calls : List ToolCall)
  | tool (tool_call_id : String) (content : String)
deriving DecidableEq

/-- `DONE` and `EXHAUSTED`: which return site of the loop produced the
final string — the tool-call-free early return, or the fall-through
after the last iteration. -/
inductive LoopOutcome where
  | done
  | exhausted
deriving DecidableEq

/-- The fixed fallback string returned when the loop exhausts its
iteration budget (identical in both modes). -/
def fallbackAnswer : String :=
  "Sorry, I couldn\x27t complete the task within the allowed tool calls."

/-- The model client `llm_manager.chat` in native mode, as a function
of the message history (the `tools` argument is the fixed rendered
catalog and is omitted). -/
def ChatFunction : Type := List ChatMessage → LLMResponse

/-- `json.loads` on an argument string: `none` models a raised
`JSONDecodeError`. -/
def JsonParse : Type := String → Option Json

/-- The tool executor seen by the native loop: `tool_key` and parsed
arguments to result string (total — `execute_mcp_tool_native` never
raises). -/
def ToolExec : Type := String → Json → String

/-- The inner `for tool_call in response.tool_calls` loop of native
mode: parse each call's arguments (a parse failure raises and aborts),
execute it, and append the `role: tool` result message; calls run
sequentially in list order. -/
def runToolCalls (parse : JsonParse) (execTool : ToolExec) :
    List ToolCall → List ChatMessage → Except String (List ChatMessage)
  | [], messages => Except.ok messages
  | tool_call :: rest, messages =>
    match parse tool_call.function.arguments with
    | none => Except.error ("JSONDecodeError: " ++ tool_call.function.arguments)
    | some arguments =>
      let result := execTool tool_call.function.name arguments
      runToolCalls parse execTool rest
        (messages ++ [ChatMessage.tool tool_call.id result])

/-- The `role: tool` message produced for one tool call when its
arguments parse (the `none` branch is unreachable under that
hypothesis). -/
def toolMessageOf (parse : JsonParse) (execTool : ToolExec) (tool_call : ToolCall) :
    ChatMessage :=
  match parse tool_call.function.arguments with
  | some arguments =>
    ChatMessage.tool tool_call.id (execTool tool_call.function.name arguments)
  | none => ChatMessage.tool tool_call.id ""

/-- The native-mode ReAct loop of `_execute_native_mode`, by remaining
iterations (`fuel`), current history and model-invocation count so
far.  Each iteration invokes the model once; a tool-call-free response
returns `content or "No response content"` (`DONE`); otherwise the
assistant message and the sequential tool results are appended and the
loop continues; running out of iterations returns the fixed fallback
(`EXHAUSTED`).  `Except.error` models an escaped exception. -/
def nativeLoop (chat : ChatFunction) (parse : JsonParse) (execTool : ToolExec) :
    Nat → List ChatMessage → Nat → Except String (LoopOutcome × String × Nat)
  | 0, _, invocations => Except.ok (LoopOutcome.exhausted, fallbackAnswer, invocations)
  | fuel + 1, messages, invocations =>
    let response := chat messages
    if response.tool_calls.isEmpty then
      Except.ok (LoopOutcome.done,
        pyOrString response.content "No response content", invocations + 1)
    else
      match runToolCalls parse execTool response.tool_calls
          (messages ++ [ChatMessage.assistant response.content response.tool_calls]) with
      | Except.error e => Except.error e
      | Except.ok messages2 => nativeLoop chat parse execTool fuel messages2 (invocations + 1)

/-- `_execute_native_mode`: seed the history with the system prompt and
the user message and run `for iteration in range(1, max_tool_calls + 2)`,
i.e. `max_tool_calls + 1` iterations. -/
def executeNativeMode (chat : ChatFunction) (parse : JsonParse) (execTool : ToolExec)
    (max_tool_calls : Nat) (system_prompt user_message : String) :
    Except String (LoopOutcome × String × Nat) :=
  nativeLoop chat parse execTool (max_tool_calls + 1)
    [ChatMessage.system system_prompt, ChatMessage.user user_message] 0

/-- A tool call parsed from the assistant's text in prompt mode.
Modelled from the spec: `_parse_tool_calls` lives in the (absent)
`mcp_agent.py`; the spec only requires a `tool` name and an argument
payload per parsed call. -/
structure PromptToolCall where
  tool : String
  arguments : Json

/-- The dict returned by `_execute_tool_call` in prompt mode.
Modelled from the spec: `_execute_tool_call` lives in the (absent)
`mcp_agent.py`; the spec requires a total result that carries either
an error or content. -/
structure PromptToolResult where
  error : Option String
  content : String
deriving DecidableEq

/-- The model client in prompt mode (no `tools` argument); the
response content is taken as text.  Modelled from the spec: the
response type of the (absent) `llm_manager.chat` is unknown; the spec
gives `content: text`. -/
def PromptChat : Type := List ChatMessage → String

/-- `_parse_tool_calls`.  Modelled from the spec: it lives in the
(absent) `mcp_agent.py`; the spec requires a best-effort total parse
that yields the empty list when the text is not a tool-call request. -/
def PromptParse : Type := String → List PromptToolCall

/-- `_execute_tool_call`.  Modelled from the spec: it lives in the
(absent) `mcp_agent.py`; the spec requires it never to raise. -/
def PromptToolExec : Type := PromptToolCall → PromptToolResult

/-- `_format_tool_results`.  Modelled from the spec: it lives in the
(absent) `mcp_agent.py`; the spec only requires the results to be
merged into one synthesized user-role message. -/
def FormatResults : Type := List PromptToolResult → String

/-- The prompt-mode ReAct loop of `_execute_prompt_mode`, by remaining
iterations, history and model-invocation count.  Each iteration
invokes the model once and parses its text; no parsed tool calls
returns the text verbatim (`DONE`); otherwise the assistant text is
appended, the calls are executed sequentially collecting their results
in order, the formatted results are appended as one user message, and
the loop continues; running out of iterations returns the fixed
fallback (`EXHAUSTED`). -/
def promptLoop (chat : PromptChat) (parseCalls : PromptParse)
    (execCall : PromptToolExec) (formatResults : FormatResults) :
    Nat → List ChatMessage → Nat → LoopOutcome × String × Nat
  | 0, _, invocations => (LoopOutcome.exhausted, fallbackAnswer, invocations)
  | fuel + 1, messages, invocations =>
    let assistant_message := chat messages
    let tool_calls := parseCalls assistant_message
    if tool_calls.isEmpty then
      (LoopOutcome.done, assistant_message, invocations + 1)
    else
      let messages1 := messages ++ [ChatMessage.assistant (some assistant_message) []]
      let tool_results := tool_calls.foldl (fun acc tc => acc ++ [execCall tc]) []
      let messages2 := messages1 ++ [ChatMessage.user (formatResults tool_results)]
      promptLoop chat parseCalls execCall formatResults fuel messages2 (invocations + 1)

/-- `_execute_prompt_mode`: seed the history with
`_build_initial_messages(user_message)` (absent from the source, so the
initial history is a parameter) and run
`for iteration in range(max_tool_calls + 1)`, i.e. `max_tool_calls + 1`
iterations. -/
def executePromptMode (chat : PromptChat) (parseCalls : PromptParse)
    (execCall : PromptToolExec) (formatResults : FormatResults)
    (max_tool_calls : Nat) (initial_messages : List ChatMessage) :
    LoopOutcome × String × Nat :=
  promptLoop chat parseCalls execCall formatResults (max_tool_calls + 1)
    initial_messages 0

/-! ## The executor entry point `MCPAgentExecutor.execute` -/

/-- One event sent through the `TaskUpdater` progress sink:
`update_status(working, msg, final)`, `add_artifact`, `complete`, or
`failed`. -/
inductive SinkEvent where
  | statusUpdate (text : String) (final : Bool)
  | artifact (text : String)
  | completed (text : String)
  | failed (text : String)
deriving DecidableEq

/-- The failure notification text built in the `except` handler of
`execute`. -/
def errorNotification (e : String) : String :=
  "Sorry, an error occurred while processing your request: " ++ e

/-- `MCPAgentExecutor.execute`: the try/except wrapper around tool
loading, input preparation and the selected loop mode.  `ensureTools`
models `_ensure_tools_loaded` (may raise); `prepared` the result of
`prepare_input` (pure); `runLoop` the selected `_execute_*_mode`,
returning the progress events it emitted and its result or escaped
exception.  Returns the full ordered event trace and `Except.error e`
when the exception `e` escapes to the caller (re-raised after the
failure notification). -/
def mcpExecute (ensureTools : Except String Unit) (prepared : Option String)
    (runLoop : String → List SinkEvent × Except String String) :
    List SinkEvent × Except String Unit :=
  match ensureTools with
  | Except.error e => ([SinkEvent.failed (errorNotification e)], Except.error e)
  | Except.ok () =>
    if optStrTruthy prepared then
      let user_message := prepared.getD ""
      let events0 := [SinkEvent.statusUpdate "🔄 Processing your request..." false]
      match runLoop user_message with
      | (loopEvents, Except.error e) =>
        (events0 ++ loopEvents ++ [SinkEvent.failed (errorNotification e)], Except.error e)
      | (loopEvents, Except.ok result) =>
        (events0 ++ loopEvents ++
          [SinkEvent.artifact result,
           SinkEvent.completed "✅ Task completed successfully!"], Except.ok ())
    else
      ([SinkEvent.failed "No message content found"], Except.ok ())

/-! ## Input preparation (`prepare_input` in both executors) -/

/-- One part of an A2A message: `text` is `some` exactly when the part
has a `text` attribute, `rootText` exactly when it has a `root` with a
`text` attribute. -/
structure PartModel where
  text : Option String
  rootText : Option String
deriving DecidableEq

/-- An A2A message: its role string and its ordered parts. -/
structure A2AMessage where
  role : String
  parts : List PartModel
deriving DecidableEq

/-- The request context as consumed by `prepare_input`:
`current_task.history` (absent task or history modelled by `[]`) and
`context.message`. -/
structure A2AContext where
  history : List A2AMessage
  message : Option A2AMessage
deriving DecidableEq

/-- Per-part text extraction shared by both executors: the `text`
attribute when present and truthy, else `root.text` when present, else
nothing. -/
def extractPartText (p : PartModel) : String :=
  if optStrTruthy p.text then p.text.getD ""
  else match p.rootText with
    | some t => t
    | none => ""

/-- Concatenation of a message's part texts in part order (the `+=`
loop of both executors). -/
def messageText (m : A2AMessage) : String :=
  String.join (m.parts.map extractPartText)

/-- `MCPAgentExecutor.prepare_input`: extract the current message's
text; return it when non-empty, `None` otherwise.  Task history is not
consulted. -/
def mcpPrepareInput (context : A2AContext) : Option String :=
  match context.message with
  | some m =>
    if !m.parts.isEmpty then
      let current_text := messageText m
      if current_text ≠ "" then some current_text else none
    else none
  | none => none

/-- `LLMAgentExecutor.prepare_input`: walk the task history in order,
appending `{role, content}` for every message with non-empty extracted
text (role mapped to `user` or `assistant`), then append the current
message as a `user` entry when its text is non-empty; `None` when
nothing was collected. -/
def llmPrepareInput (context : A2AContext) : Option (List (String × String)) :=
  let history_messages := context.history.foldl
    (fun acc msg =>
      let text_content := messageText msg
      if text_content ≠ "" then
        acc ++ [(if msg.role = "user" then "user" else "assistant", text_content)]
      else acc)
    []
  let messages := history_messages ++
    (match context.message with
     | some m =>
       if !m.parts.isEmpty then
         let current_text := messageText m
         if current_text ≠ "" then [("user", current_text)] else []
       else []
     | none => [])
  if messages.isEmpty then none else some messages

/-- The conversation input described by the spec sentence of C6, for
refinement comparison: the part-concatenation of every historical
message in chronological order, followed by that of the current
message. -/
def specConversationTexts (context : A2AContext) : List String :=
  context.history.map messageText ++
    (match context.message with
     | some m => [messageText m]
     | none => [])

/-- The `{role, content}` entry contributed by one historical message
in `LLMAgentExecutor.prepare_input`: skipped when its extracted text
is empty, with the role mapped to `user` or `assistant`. -/
def llmHistoryEntry (msg : A2AMessage) : Option (String × String) :=
  let text_content := messageText msg
  if text_content ≠ "" then
    some (if msg.role = "user" then "user" else "assistant", text_content)
  else none

/-- The full entry list `LLMAgentExecutor.prepare_input` collects: the
non-empty historical entries in chronological order, followed by the
current message as a `user` entry when its text is non-empty. -/
def llmConversationEntries (context : A2AContext) : List (String × String) :=
  context.history.filterMap llmHistoryEntry ++
    (match context.message with
     | some m =>
       if !m.parts.isEmpty then
         let current_text := messageText m
         if current_text ≠ "" then [("user", current_text)] else []
       else []
     | none => [])

/-! ## Server manager (`src/core/server.py`) -/

/-- A `uvicorn.Server` handle; only the `should_exit` flag is
observable to the manager's control flow. -/
structure UvicornServer where
  should_exit : Bool
deriving DecidableEq

/-- The `ServerManager` registry state: the insertion-ordered dict
`self.servers` mapping agent name to its server. -/
structure ServerManager where
  servers : List (String × UvicornServer)
deriving DecidableEq

/-- `get_running_agents`: `list(self.servers.keys())`. -/
def ServerManager.get_running_agents (m : ServerManager) : List String :=
  m.servers.map (fun p => p.1)

/-- `is_agent_running`: `agent_name in self.servers`. -/
def ServerManager.is_agent_running (m : ServerManager) (agent_name : String) : Bool :=
  m.servers.any (fun p => p.1 = agent_name)

/-- `shutdown_agent`: when the agent is not running, warn and return
with the registry untouched; otherwise set the server's `should_exit`
flag, sleep briefly, and delete the entry from the dict. -/
def ServerManager.shutdown_agent (m : ServerManager) (agent_name : String) : ServerManager :=
  if m.is_agent_running agent_name then
    { servers := (m.servers.map
        (fun p => if p.1 = agent_name then (p.1, { p.2 with should_exit := true }) else p)).filter
        (fun p => ¬ p.1 = agent_name) }
  else m

/-- `shutdown_all`: set `should_exit` on every registered server,
gather the (never-failing, `return_exceptions=True`) shutdown tasks,
then unconditionally `self.servers.clear()`. -/
def ServerManager.shutdown_all (_m : ServerManager) : ServerManager :=
  { servers := [] }

/-! ## Echo agent (`src/agents/echo/echo_agent.py`) -/

/-- The echo agent: only its name is state. -/
structure EchoAgent where
  name : String

/-- `EchoAgent.invoke`: ignores `input_data` (of any type, `None`
included) and returns the fixed greeting built from the agent name. -/
def EchoAgent.invoke {α : Type} (a : EchoAgent) (_input_data : Option α) : String :=
  "Echo Agent (" ++ a.name ++ ") 响应: Hello from Echo Agent!"

/-! ## Concrete instances used by witnesses and counterexamples -/

/-- The descriptor of a `calc:add` tool with a declared, non-empty
input schema. -/
def calcToolInfo : ToolInfo :=
  { server := "calc", tool :=
    { name := "add", description := some "Add two numbers",
      inputSchema := some (Json.obj [("type", Json.str "object")]) } }

/-- The descriptor of an `echo:say` tool with no declared input
schema. -/
def echoToolInfo : ToolInfo :=
  { server := "echo", tool :=
    { name := "say", description := none, inputSchema := none } }

/-- A one-tool cache owning `calc:add` on server `calc`. -/
def calcCache : ToolsCache := [("calc:add", calcToolInfo)]

/-- A transport that always raises a connection timeout. -/
def timeoutTransport : Transport :=
  fun _ _ _ => Except.error "Connection timeout"

/-- A cache whose single tool declares the empty-object schema
(declared, yet Python-falsy). -/
def emptySchemaCache : ToolsCache :=
  [("srv:tool", { server := "srv", tool :=
    { name := "tool", description := some "A tool",
      inputSchema := some (Json.obj []) } })]

/-- A model that requests the same single `calc:add` call on every
invocation. -/
def chatAlwaysToolCall : ChatFunction :=
  fun _ => { content := some "thinking",
             tool_calls := [ToolCall.mk "call_1"
               (ToolCallFunction.mk "calc:add" "\x7b\x7d")] }

/-- A parse that accepts every argument string as the empty object. -/
def alwaysParse : JsonParse := fun _ => some (Json.obj [])

/-- A tool executor that always answers `5`. -/
def constToolExec : ToolExec := fun _ _ => "5"

/-- A prompt-mode model whose text always requests a tool. -/
def promptChatConst : PromptChat := fun _ => "use the tool"

/-- A prompt-mode parse that reads one `calc:add` call out of any text. -/
def promptParseOneCall : PromptParse :=
  fun _ => [{ tool := "calc:add", arguments := Json.obj [] }]

/-- A prompt-mode parse that never finds a tool call. -/
def promptParseNone : PromptParse := fun _ => []

/-- A prompt-mode tool executor that always succeeds with `5`. -/
def promptExecConst : PromptToolExec := fun _ => { error := none, content := "5" }

/-- A prompt-mode result formatter joining result contents with
newlines. -/
def formatJoin : FormatResults :=
  fun results => String.intercalate "\n" (results.map (fun r => r.content))

/-- A model whose first response is tool-call-free with empty string
content. -/
def emptyContentChat : ChatFunction :=
  fun _ => { content := some "", tool_calls := [] }

/-- A model whose first response is tool-call-free with `None`
content. -/
def noneContentChat : ChatFunction :=
  fun _ => { content := none, tool_calls := [] }

/-- A model whose first response is a tool-call-free final answer. -/
def finalAnswerChat : ChatFunction :=
  fun _ => { content := some "The answer is 5", tool_calls := [] }

/-- A request context with one historical turn (`"a"`) and a current
message (`"b"`). -/
def historyContext : A2AContext :=
  { history := [{ role := "user", parts := [{ text := some "a", rootText := none }] }],
    message := some { role := "user", parts := [{ text := some "b", rootText := none }] } }

/-- A loop-mode run that immediately raises a model-invocation
failure, having emitted no events. -/
def failingLoopRun : String → List SinkEvent × Except String String :=
  fun _ => ([], Except.error "Model invocation failed")

/-- A registry with the single running agent `alpha`. -/
def alphaManager : ServerManager :=
  { servers := [("alpha", { should_exit := false })] }

/-! ## Helper lemmas -/

/-- Appending through a fold equals mapping: the accumulation pattern
of the prompt-mode tool loop. -/
theorem foldl_append_singleton_eq_map {α β : Type} (f : α → β) :
    ∀ (l : List α) (acc : List β),
      l.foldl (fun acc x => acc ++ [f x]) acc = acc ++ l.map f := by
  intro l
  induction l with
  | nil => intro acc; simp
  | cons x xs ih => intro acc; simp [List.foldl_cons, ih]

/-- When every requested call's arguments parse, the native inner tool
loop succeeds and appends exactly the per-call `tool` messages, in
request order. -/
theorem runToolCalls_ok (parse : JsonParse) (execTool : ToolExec) :
    ∀ (tool_calls : List ToolCall) (messages : List ChatMessage),
      (∀ tc ∈ tool_calls, (parse tc.function.arguments).isSome) →
      runToolCalls parse execTool tool_calls messages =
        Except.ok (messages ++ tool_calls.map (toolMessageOf parse execTool)) := by
  intro tool_calls
  induction tool_calls with
  | nil => intro messages _; simp [runToolCalls]
  | cons tc rest ih =>
    intro messages h
    have htc := h tc (List.mem_cons_self _ _)
    cases hp : parse tc.function.arguments with
    | none => rw [hp] at htc; simp at htc
    | some arguments =>
      simp only [runToolCalls, hp]
      rw [ih _ (fun x hx => h x (List.mem_cons_of_mem _ hx))]
      simp [toolMessageOf, hp]

/-- A model that requests tools on every invocation (with parseable
arguments) drives the native loop through all its iterations: one
model invocation per unit of fuel, ending exhausted with the fallback
answer and no exception. -/
theorem nativeLoop_exhausts (chat : ChatFunction) (parse : JsonParse) (execTool : ToolExec)
    (hcalls : ∀ messages, (chat messages).tool_calls ≠ [])
    (hparse : ∀ messages, ∀ tc ∈ (chat messages).tool_calls,
      (parse tc.function.arguments).isSome) :
    ∀ (fuel : Nat) (messages : List ChatMessage) (invocations : Nat),
      nativeLoop chat parse execTool fuel messages invocations =
        Except.ok (LoopOutcome.exhausted, fallbackAnswer, invocations + fuel) := by
  intro fuel
  induction fuel with
  | zero => intro messages invocations; rfl
  | succ f ih =>
    intro messages invocations
    have h1 : (chat messages).tool_calls.isEmpty = false := by
      cases hh : (chat messages).tool_calls with
      | nil => exact absurd hh (hcalls messages)
      | cons a l => rfl
    have harith : invocations + 1 + f = invocations + (f + 1) := by omega
    simp only [nativeLoop, h1, Bool.false_eq_true, if_false]
    rw [runToolCalls_ok parse execTool _ _ (hparse messages)]
    exact (ih _ (invocations + 1)).trans (by rw [harith])

/-- A prompt-mode model whose text always parses to at least one tool
call drives the prompt loop through all its iterations, ending
exhausted with the fallback answer. -/
theorem promptLoop_exhausts (chat : PromptChat) (parseCalls : PromptParse)
    (execCall : PromptToolExec) (formatResults : FormatResults)
    (hcalls : ∀ messages, parseCalls (chat messages) ≠ []) :
    ∀ (fuel : Nat) (messages : List ChatMessage) (invocations : Nat),
      promptLoop chat parseCalls execCall formatResults fuel messages invocations =
        (LoopOutcome.exhausted, fallbackAnswer, invocations + fuel) := by
  intro fuel
  induction fuel with
  | zero => intro messages invocations; rfl
  | succ f ih =>
    intro messages invocations
    have h1 : (parseCalls (chat messages)).isEmpty = false := by
      cases hh : parseCalls (chat messages) with
      | nil => exact absurd hh (hcalls messages)
      | cons a l => rfl
    have harith : invocations + 1 + f = invocations + (f + 1) := by omega
    simp only [promptLoop, h1, Bool.false_eq_true, if_false]
    rw [ih _ (invocations + 1), harith]

/-! ## Claim theorems -/

/-- C1: with `max_tool_calls = k`, a model that requests at least one
tool call on every invocation (with arguments the model-client
contract guarantees parseable) causes exactly `k + 1` model
invocations in native mode and exactly `k + 1` in prompt mode; both
loops terminate exhausted with the fixed fallback string and raise no
exception. -/
theorem react_loop_iteration_bound
    (chat : ChatFunction) (parse : JsonParse) (execTool : ToolExec)
    (chatP : PromptChat) (parseCalls : PromptParse) (execCall : PromptToolExec)
    (formatResults : FormatResults) (k : Nat) (system_prompt user_message : String)
    (initial_messages : List ChatMessage)
    (hcalls : ∀ messages, (chat messages).tool_calls ≠ [])
    (hparse : ∀ messages, ∀ tc ∈ (chat messages).tool_calls,
      (parse tc.function.arguments).isSome)
    (hpcalls : ∀ messages, parseCalls (chatP messages) ≠ []) :
    executeNativeMode chat parse execTool k system_prompt user_message =
      Except.ok (LoopOutcome.exhausted, fallbackAnswer, k + 1) ∧
    executePromptMode chatP parseCalls execCall formatResults k initial_messages =
      (LoopOutcome.exhausted, fallbackAnswer, k + 1) := by
  constructor
  · unfold executeNativeMode
    rw [nativeLoop_exhausts chat parse execTool hcalls hparse]
    rw [Nat.zero_add]
  · unfold executePromptMode
    rw [promptLoop_exhausts chatP parseCalls execCall formatResults hpcalls]
    rw [Nat.zero_add]

/-- C1 witness: with `max_tool_calls = 2` and a model that always
requests one `calc:add` call, both modes make exactly 3 model
invocations and end with the fallback string. -/
theorem react_loop_iteration_bound_witness :
    executeNativeMode chatAlwaysToolCall alwaysParse constToolExec 2
      "You are a helpful AI assistant with access to tools." "hello" =
      Except.ok (LoopOutcome.exhausted, fallbackAnswer, 3) ∧
    executePromptMode promptChatConst promptParseOneCall promptExecConst formatJoin 2
      [ChatMessage.user "hello"] =
      (LoopOutcome.exhausted, fallbackAnswer, 3) :=
  react_loop_iteration_bound chatAlwaysToolCall alwaysParse constToolExec
    promptChatConst promptParseOneCall promptExecConst formatJoin 2
    "You are a helpful AI assistant with access to tools." "hello"
    [ChatMessage.user "hello"]
    (fun _ => List.cons_ne_nil _ _)
    (fun _ _ _ => rfl)
    (fun _ => List.cons_ne_nil _ _)

/-- C2: in native mode a batch of requested tool calls is executed
sequentially and its `tool`-role result messages are appended to
history exactly in request order (the executor being total, each
individual call's success or failure is carried inside its result
string); in prompt mode one loop step appends the assistant text and
then one user message formatting the per-call results collected in
request order. -/
theorem tool_results_in_request_order
    (parse : JsonParse) (execTool : ToolExec) (execCall : PromptToolExec)
    (tool_calls : List ToolCall) (messages : List ChatMessage)
    (h : ∀ tc ∈ tool_calls, (parse tc.function.arguments).isSome) :
    runToolCalls parse execTool tool_calls messages =
      Except.ok (messages ++ tool_calls.map (toolMessageOf parse execTool)) ∧
    ∀ (chat : PromptChat) (parseCalls : PromptParse) (formatResults : FormatResults)
      (fuel invocations : Nat) (pmessages : List ChatMessage),
      parseCalls (chat pmessages) ≠ [] →
      promptLoop chat parseCalls execCall formatResults (fuel + 1) pmessages invocations =
        promptLoop chat parseCalls execCall formatResults fuel
          (pmessages ++ [ChatMessage.assistant (some (chat pmessages)) [],
            ChatMessage.user (formatResults ((parseCalls (chat pmessages)).map execCall))])
          (invocations + 1) := by
  constructor
  · exact runToolCalls_ok parse execTool tool_calls messages h
  · intro chat parseCalls formatResults fuel invocations pmessages hne
    have h1 : (parseCalls (chat pmessages)).isEmpty = false := by
      cases hh : parseCalls (chat pmessages) with
      | nil => exact absurd hh hne
      | cons a l => rfl
    simp only [promptLoop, h1, Bool.false_eq_true, if_false]
    rw [foldl_append_singleton_eq_map]
    simp [List.append_assoc]

/-- C2 witness: two concrete requested calls produce exactly their two
`tool` messages in request order, and one concrete prompt-mode step
appends the assistant text followed by the formatted results. -/
theorem tool_results_in_request_order_witness :
    runToolCalls alwaysParse constToolExec
      [ToolCall.mk "call_1" (ToolCallFunction.mk "calc:add" "\x7b\x7d"),
        ToolCall.mk "call_2" (ToolCallFunction.mk "weather:now" "\x7b\x7d")] [] =
      Except.ok [ChatMessage.tool "call_1" "5", ChatMessage.tool "call_2" "5"] ∧
    promptLoop promptChatConst promptParseOneCall promptExecConst formatJoin 1 [] 0 =
      promptLoop promptChatConst promptParseOneCall promptExecConst formatJoin 0
        [ChatMessage.assistant (some "use the tool") [], ChatMessage.user "5"] 1 := by
  have h := tool_results_in_request_order alwaysParse constToolExec promptExecConst
    [ToolCall.mk "call_1" (ToolCallFunction.mk "calc:add" "\x7b\x7d"),
      ToolCall.mk "call_2" (ToolCallFunction.mk "weather:now" "\x7b\x7d")] []
    (fun _ _ => rfl)
  exact ⟨h.1, h.2 promptChatConst promptParseOneCall formatJoin 0 0 []
    (List.cons_ne_nil _ _)⟩

/-- C4 counterexample: a first response with no tool calls and content
`""` makes the native loop return the fixed string
`"No response content"`, which differs from the response's content —
so the final answer is not always the content verbatim. -/
theorem done_verbatim_counterexample :
    (emptyContentChat [ChatMessage.system "s", ChatMessage.user "hi"]).tool_calls = [] ∧
    (emptyContentChat [ChatMessage.system "s", ChatMessage.user "hi"]).content = some "" ∧
    executeNativeMode emptyContentChat alwaysParse constToolExec 3 "s" "hi" =
      Except.ok (LoopOutcome.done, "No response content", 1) ∧
    "No response content" ≠ "" :=
  ⟨rfl, rfl, rfl, by decide⟩

/-- C4 (amended): a model response with no tool calls terminates the
loop in `DONE` on that iteration (the first when it is the first
response) after that one model invocation; the final answer is the
response content verbatim when it is non-empty (native) or the
response text verbatim (prompt), while in native mode an empty or
missing content yields the fixed string `"No response content"`. -/
theorem done_on_tool_free_response
    (chat : ChatFunction) (parse : JsonParse) (execTool : ToolExec)
    (chatP : PromptChat) (parseCalls : PromptParse) (execCall : PromptToolExec)
    (formatResults : FormatResults) (fuel invocations : Nat)
    (messages pmessages : List ChatMessage) :
    ((chat messages).tool_calls = [] → ∀ s, (chat messages).content = some s → s ≠ "" →
      nativeLoop chat parse execTool (fuel + 1) messages invocations =
        Except.ok (LoopOutcome.done, s, invocations + 1)) ∧
    ((chat messages).tool_calls = [] →
      ((chat messages).content = none ∨ (chat messages).content = some "") →
      nativeLoop chat parse execTool (fuel + 1) messages invocations =
        Except.ok (LoopOutcome.done, "No response content", invocations + 1)) ∧
    (parseCalls (chatP pmessages) = [] →
      promptLoop chatP parseCalls execCall formatResults (fuel + 1) pmessages invocations =
        (LoopOutcome.done, chatP pmessages, invocations + 1)) := by
  refine ⟨?_, ?_, ?_⟩
  · intro hempty s hs hne
    simp only [nativeLoop, hempty, List.isEmpty_nil, if_true]
    simp [pyOrString, hs, hne]
  · intro hempty hcontent
    simp only [nativeLoop, hempty, List.isEmpty_nil, if_true]
    rcases hcontent with hc | hc <;> simp [pyOrString, hc]
  · intro hempty
    simp only [promptLoop, hempty, List.isEmpty_nil, if_true]

/-- C4 witness: a concrete tool-call-free answer is returned verbatim
after one invocation; concrete `None` content yields the fixed
replacement string; a concrete non-parsing prompt response is returned
verbatim after one invocation. -/
theorem done_on_tool_free_response_witness :
    nativeLoop finalAnswerChat alwaysParse constToolExec 1 [] 0 =
      Except.ok (LoopOutcome.done, "The answer is 5", 1) ∧
    nativeLoop noneContentChat alwaysParse constToolExec 1 [] 0 =
      Except.ok (LoopOutcome.done, "No response content", 1) ∧
    promptLoop promptChatConst promptParseNone promptExecConst formatJoin 1 [] 0 =
      (LoopOutcome.done, "use the tool", 1) := by
  refine ⟨?_, ?_, ?_⟩
  · exact (done_on_tool_free_response finalAnswerChat alwaysParse constToolExec
      promptChatConst promptParseNone promptExecConst formatJoin 0 0 [] []).1
      rfl "The answer is 5" rfl (by decide)
  · exact (done_on_tool_free_response noneContentChat alwaysParse constToolExec
      promptChatConst promptParseNone promptExecConst formatJoin 0 0 [] []).2.1
      rfl (Or.inl rfl)
  · exact (done_on_tool_free_response finalAnswerChat alwaysParse constToolExec
      promptChatConst promptParseNone promptExecConst formatJoin 0 0 [] []).2.2 rfl

/-- C3: a tool key absent from the catalog, or a transport exception
while executing the resolved tool, is converted by
`execute_mcp_tool_native` into an error-tagged JSON string; and a whole
batch of such calls is appended to history without any exception
escaping the native inner loop. -/
theorem tool_failure_contained (transport : Transport) (tool_key : String)
    (arguments : Json) (tools_cache : ToolsCache) :
    (cacheFind tools_cache tool_key = none →
      execute_mcp_tool_native transport tool_key arguments tools_cache =
        errorResult ("Tool \x27" ++ tool_key ++ "\x27 not found in cache")) ∧
    (∀ tool_info e, cacheFind tools_cache tool_key = some tool_info →
      transport tool_info.server tool_info.tool.name arguments = Except.error e →
      execute_mcp_tool_native transport tool_key arguments tools_cache = errorResult e) ∧
    (∀ (parse : JsonParse) (tool_calls : List ToolCall) (messages : List ChatMessage),
      (∀ tc ∈ tool_calls, (parse tc.function.arguments).isSome) →
      runToolCalls parse
          (fun key args => execute_mcp_tool_native transport key args tools_cache)
          tool_calls messages =
        Except.ok (messages ++ tool_calls.map (toolMessageOf parse
          (fun key args => execute_mcp_tool_native transport key args tools_cache)))) := by
  refine ⟨?_, ?_, ?_⟩
  · intro h
    unfold execute_mcp_tool_native
    rw [h]
  · intro tool_info e h ht
    simp [execute_mcp_tool_native, h, ht]
  · intro parse tool_calls messages h
    exact runToolCalls_ok parse _ tool_calls messages h

/-- C3 witness: a missing key and a timed-out transport each produce
the error-tagged JSON result on concrete inputs. -/
theorem tool_failure_contained_witness :
    execute_mcp_tool_native timeoutTransport "weather:now" (Json.obj []) calcCache =
      errorResult "Tool \x27weather:now\x27 not found in cache" ∧
    execute_mcp_tool_native timeoutTransport "calc:add" (Json.obj []) calcCache =
      errorResult "Connection timeout" := by
  refine ⟨(tool_failure_contained timeoutTransport "weather:now" (Json.obj []) calcCache).1 rfl,
    (tool_failure_contained timeoutTransport "calc:add" (Json.obj []) calcCache).2.1
      calcToolInfo "Connection timeout" rfl rfl⟩

/-- C5 counterexample: the cached tool of `emptySchemaCache` declares
the input schema `{}` (present, but Python-falsy), and its rendered
parameters are the default empty-object schema, not the declared
schema — so the round-trip is not the identity for every descriptor
with a declared schema. -/
theorem catalog_roundtrip_counterexample :
    (emptySchemaCache.map (fun e => e.2.tool.inputSchema)) = [some (Json.obj [])] ∧
    convert_mcp_tools_to_openai emptySchemaCache =
      [{ name := "srv:tool", description := "A tool", parameters := emptyObjectSchema }] ∧
    Json.obj [] ≠ emptyObjectSchema := by
  refine ⟨rfl, rfl, ?_⟩
  intro h
  simp only [emptyObjectSchema, Json.obj.injEq] at h
  exact List.noConfusion h

/-- C5 (amended): the native rendering maps each cache entry to an
entry whose name is the cache key; the parameters equal the declared
input schema identically when that schema is present and non-empty
(Python-truthy), and equal `{type: object, properties: {}}` when the
schema is missing or Python-falsy. -/
theorem catalog_rendering (tools_cache : ToolsCache) (key : String) (info : ToolInfo) :
    convert_mcp_tools_to_openai tools_cache = tools_cache.map renderOpenAITool ∧
    (renderOpenAITool (key, info)).name = key ∧
    (∀ schema, info.tool.inputSchema = some schema → schema.truthy = true →
      (renderOpenAITool (key, info)).parameters = schema) ∧
    (∀ schema, info.tool.inputSchema = some schema → schema.truthy = false →
      (renderOpenAITool (key, info)).parameters = emptyObjectSchema) ∧
    (info.tool.inputSchema = none →
      (renderOpenAITool (key, info)).parameters = emptyObjectSchema) := by
  refine ⟨rfl, rfl, ?_, ?_, ?_⟩
  · intro schema h ht
    simp [renderOpenAITool, h, ht]
  · intro schema h ht
    simp [renderOpenAITool, h, ht]
  · intro h
    simp [renderOpenAITool, h]

/-- C5 witness: on a concrete declared, truthy schema the rendering
preserves it identically; on a concrete missing schema it renders the
default. -/
theorem catalog_rendering_witness :
    (renderOpenAITool ("calc:add", calcToolInfo)).parameters =
      Json.obj [("type", Json.str "object")] ∧
    (renderOpenAITool ("echo:say", echoToolInfo)).parameters = emptyObjectSchema := by
  exact ⟨(catalog_rendering [] "calc:add" calcToolInfo).2.2.1 _ rfl rfl,
    (catalog_rendering [] "echo:say" echoToolInfo).2.2.2.2 rfl⟩

/-- C8: after `shutdown_all` the registry is empty — no agent is
listed as running and no name tests as running. -/
theorem shutdown_all_clears_registry (m : ServerManager) :
    (m.shutdown_all).get_running_agents = [] ∧
    ∀ name : String, (m.shutdown_all).is_agent_running name = false := by
  exact ⟨rfl, fun _ => rfl⟩

/-- C9: `shutdown_agent` on a name that is not running leaves the
registry exactly as it was — no exception, no state change, every
other agent's entry and running state preserved. -/
theorem shutdown_agent_not_running_noop (m : ServerManager) (agent_name : String)
    (h : m.is_agent_running agent_name = false) :
    m.shutdown_agent agent_name = m ∧
    (m.shutdown_agent agent_name).servers = m.servers ∧
    ∀ other : String,
      (m.shutdown_agent agent_name).is_agent_running other = m.is_agent_running other := by
  have hm : m.shutdown_agent agent_name = m := by
    unfold ServerManager.shutdown_agent
    rw [h]
    simp
  exact ⟨hm, by rw [hm], fun other => by rw [hm]⟩

/-- C9 witness: stopping the not-running agent `beta` leaves the
registry holding `alpha` untouched. -/
theorem shutdown_agent_not_running_noop_witness :
    alphaManager.shutdown_agent "beta" = alphaManager ∧
    (alphaManager.shutdown_agent "beta").servers = alphaManager.servers ∧
    ∀ other : String,
      (alphaManager.shutdown_agent "beta").is_agent_running other =
        alphaManager.is_agent_running other :=
  shutdown_agent_not_running_noop alphaManager "beta" (by decide)

/-- A message with no parts extracts no text. -/
theorem messageText_nil_parts (m : A2AMessage) (h : m.parts = []) :
    messageText m = "" := by
  unfold messageText
  rw [h]
  rfl

/-- The history fold of `LLMAgentExecutor.prepare_input` collects
exactly the non-skipped history entries, in order. -/
theorem llm_history_foldl_eq_filterMap :
    ∀ (history : List A2AMessage) (acc : List (String × String)),
      history.foldl
        (fun acc msg =>
          let text_content := messageText msg
          if text_content ≠ "" then
            acc ++ [(if msg.role = "user" then "user" else "assistant", text_content)]
          else acc)
        acc = acc ++ history.filterMap llmHistoryEntry := by
  intro history
  induction history with
  | nil => intro acc; simp
  | cons msg rest ih =>
    intro acc
    rw [List.foldl_cons, List.filterMap_cons, ih]
    by_cases hmt : messageText msg = ""
    · simp [llmHistoryEntry, hmt]
    · simp [llmHistoryEntry, hmt]

/-- The texts of the collected history entries are the non-empty
per-message part-concatenations, in order. -/
theorem llm_history_texts (history : List A2AMessage) :
    (history.filterMap llmHistoryEntry).map Prod.snd =
      (history.map messageText).filter (fun t => t != "") := by
  induction history with
  | nil => rfl
  | cons msg rest ih =>
    rw [List.filterMap_cons, List.map_cons, List.filter_cons]
    by_cases hmt : messageText msg = ""
    · simp [llmHistoryEntry, hmt, ih]
    · simp [llmHistoryEntry, hmt, ih]

/-- C6 counterexample: on a context with one historical turn (text
`"a"`) and a current message (text `"b"`), the spec's described
conversation input covers both turns (`"ab"` concatenated), but
`MCPAgentExecutor.prepare_input` returns only the current turn's
`"b"`. -/
theorem prepare_input_counterexample :
    specConversationTexts historyContext = ["a", "b"] ∧
    String.join (specConversationTexts historyContext) = "ab" ∧
    mcpPrepareInput historyContext = some "b" ∧
    ("b" : String) ≠ "ab" :=
  ⟨rfl, rfl, rfl, by decide⟩

/-- C6 (amended): `MCPAgentExecutor.prepare_input` ignores history —
its output depends only on the current message, whose textual parts it
concatenates in part order; `LLMAgentExecutor.prepare_input` collects
the per-message part-concatenations of the historical turns in
chronological order followed by the current turn, skipping messages
whose extracted text is empty (roles mapped to user/assistant), and
the texts it collects are exactly the non-empty per-turn
concatenations of the spec's conversation input, in order. -/
theorem prepare_input_model (history history2 : List A2AMessage)
    (message : Option A2AMessage) (context : A2AContext) (m : A2AMessage) :
    mcpPrepareInput { history := history, message := message } =
      mcpPrepareInput { history := history2, message := message } ∧
    (context.message = some m → messageText m ≠ "" →
      mcpPrepareInput context = some (messageText m)) ∧
    llmPrepareInput context =
      (if (llmConversationEntries context).isEmpty then none
       else some (llmConversationEntries context)) ∧
    (llmConversationEntries context).map Prod.snd =
      (specConversationTexts context).filter (fun t => t != "") := by
  refine ⟨rfl, ?_, ?_, ?_⟩
  · intro hm hmt
    have hp : m.parts.isEmpty = false := by
      cases hparts : m.parts with
      | nil => exact absurd (messageText_nil_parts m hparts) hmt
      | cons a l => rfl
    simp [mcpPrepareInput, hm, hp, hmt]
  · unfold llmPrepareInput llmConversationEntries
    rw [llm_history_foldl_eq_filterMap]
    simp
  · unfold llmConversationEntries specConversationTexts
    rw [List.map_append, List.filter_append, llm_history_texts context.history]
    congr 1
    cases hmsg : context.message with
    | none => rfl
    | some m =>
      by_cases hmt : messageText m = ""
      · cases hparts : m.parts with
        | nil => simp [hmt, hparts]
        | cons a l => simp [hmt, hparts]
      · have hp : m.parts.isEmpty = false := by
          cases hparts : m.parts with
          | nil => exact absurd (messageText_nil_parts m hparts) hmt
          | cons a l => rfl
        simp [hp, hmt]

/-- C6 witness: on the concrete two-turn context, the MCP executor's
prepared input is the current turn's `"b"`, and the LLM executor's
prepared input is both turns as user entries in order, whose texts are
`["a", "b"]`. -/
theorem prepare_input_model_witness :
    mcpPrepareInput historyContext = some "b" ∧
    llmPrepareInput historyContext = some [("user", "a"), ("user", "b")] ∧
    (llmConversationEntries historyContext).map Prod.snd = ["a", "b"] := by
  have h := prepare_input_model [] [] none historyContext
    { role := "user", parts := [{ text := some "b", rootText := none }] }
  exact ⟨h.2.1 rfl (by decide), (h.2.2.1).trans rfl, (h.2.2.2).trans rfl⟩

/-- C7: whenever `MCPAgentExecutor.execute` lets an exception escape
to its caller (in particular a model-invocation failure inside the
loop), the event trace it has sent through the progress sink ends with
the human-readable failure notification for that exception — the
request never terminates silently. -/
theorem failure_notification_precedes_raise
    (ensureTools : Except String Unit) (prepared : Option String)
    (runLoop : String → List SinkEvent × Except String String) (e : String)
    (h : (mcpExecute ensureTools prepared runLoop).2 = Except.error e) :
    ∃ pre : List SinkEvent,
      (mcpExecute ensureTools prepared runLoop).1 =
        pre ++ [SinkEvent.failed (errorNotification e)] := by
  cases ensureTools with
  | error e2 =>
    simp only [mcpExecute] at h ⊢
    injection h with h2
    exact ⟨[], by rw [h2]; rfl⟩
  | ok u =>
    cases u
    by_cases hp : optStrTruthy prepared = true
    · simp only [mcpExecute, hp, if_true] at h ⊢
      cases hrun : runLoop (prepared.getD "") with
      | mk loopEvents res =>
        rw [hrun] at h
        cases res with
        | error e2 =>
          have h2 : e2 = e := by
            have h3 : (Except.error e2 : Except String Unit) = Except.error e := h
            injection h3
          subst h2
          exact ⟨[SinkEvent.statusUpdate "🔄 Processing your request..." false] ++
            loopEvents, rfl⟩
        | ok result =>
          have h3 : (Except.ok () : Except String Unit) = Except.error e := h
          exact Except.noConfusion h3
    · have hp2 : optStrTruthy prepared = false := by
        cases hob : optStrTruthy prepared with
        | true => exact absurd hob hp
        | false => rfl
      simp only [mcpExecute, hp2, Bool.false_eq_true, if_false] at h
      exact Except.noConfusion ((rfl : (Except.ok () : Except String Unit) = Except.ok ()).trans h)

/-- C7 witness: a concrete model-invocation failure escaping the loop
leaves a trace ending in the failure notification for it. -/
theorem failure_notification_precedes_raise_witness :
    ∃ pre : List SinkEvent,
      (mcpExecute (Except.ok ()) (some "hello") failingLoopRun).1 =
        pre ++ [SinkEvent.failed (errorNotification "Model invocation failed")] :=
  failure_notification_precedes_raise (Except.ok ()) (some "hello") failingLoopRun
    "Model invocation failed" rfl

/-- C10: `EchoAgent.invoke` ignores its input (of any type, `None`
included): it returns the fixed greeting determined only by the agent
name, and two invocations with different inputs coincide. -/
theorem echo_invoke_ignores_input {α β : Type} (a : EchoAgent)
    (input1 : Option α) (input2 : Option β) :
    a.invoke input1 = "Echo Agent (" ++ a.name ++ ") 响应: Hello from Echo Agent!" ∧
    a.invoke input1 = a.invoke input2 :=
  ⟨rfl, rfl⟩

end AgenticWeb
